import Mathlib

/-!
Shallow embedding of the core of the VPU NN cost model repository.

The embedding follows src/include/vpu_cost_model.h, src/include/vpu/power.h and
src/include/vpu/shave/elementwise.h. Machine floats are modelled by rationals;
the unsigned 32-bit CyclesInterfaceType is modelled by Nat together with the
reserved high error sentinels. Code of the repository that is only declared or
used here but whose definition is not part of the sources (the type enums, the
cycle error codes, DPUTheoreticalCycles, the ideal cycle estimators, the
operation sanitizer checks and the power virus factors) is modelled from the
specification and marked as such in its doc comment.
-/

namespace VPUNN

/-- Modelled from the spec: vpu/types.h is not under src/. Device generations,
in declaration order V20, V21, V27, V40, Unknown. -/
inductive VPUDevice where
  | VPU_2_0
  | VPU_2_1
  | VPU_2_7
  | VPU_4_0
  | UNKNOWN
  deriving DecidableEq

/-- Numeric tag of the device enum, used for the ordered comparison
device greater-or-equal VPU_2_7 in compressConv_replace_by_CM_CONV_VPU27. -/
def VPUDevice.toNat : VPUDevice → Nat
  | .VPU_2_0 => 0
  | .VPU_2_1 => 1
  | .VPU_2_7 => 2
  | .VPU_4_0 => 3
  | .UNKNOWN => 4

/-- Modelled from the spec: vpu/types.h is not under src/. Operations of a DPU
workload; CM_CONVOLUTION is the compressed convolution. -/
inductive Operation where
  | CONVOLUTION
  | CM_CONVOLUTION
  | DW_CONVOLUTION
  | AVEPOOL
  | MAXPOOL
  | ELTWISE
  | INVALID
  deriving DecidableEq

/-- Modelled from the spec: vpu/types.h is not under src/. Shape part of a
VPUTensor: x, y, channels, batch. Only the shape fields are touched by the
sanitizer rewrites under verification here. -/
structure VPUTensor where
  x : Nat
  y : Nat
  channels : Nat
  b : Nat
  deriving DecidableEq

/-- Modelled from the spec: vpu/types.h is not under src/. The DPU workload
fields used by the sanitizer rewrites and the inference pipeline: device,
operation, activator input tensor inputs[0] and output tensor outputs[0]. -/
structure DPUWorkload where
  device : VPUDevice
  op : Operation
  input0 : VPUTensor
  output0 : VPUTensor
  deriving DecidableEq

/-- A concrete placeholder workload used as out-of-range default for list
indexing in statements (never reached under the stated bounds). -/
def defaultDPUWorkload : DPUWorkload :=
  { device := VPUDevice.VPU_2_0, op := Operation.CONVOLUTION,
    input0 := { x := 1, y := 1, channels := 1, b := 1 },
    output0 := { x := 1, y := 1, channels := 1, b := 1 } }

/-- VPUCostModel::avgpool_replace_by, vpu_cost_model.h lines 187-192:
an AVEPOOL workload is rewritten to DW_CONVOLUTION, all else untouched. -/
def avgpool_replace_by (wl : DPUWorkload) : DPUWorkload :=
  if wl.op = Operation.AVEPOOL then { wl with op := Operation.DW_CONVOLUTION } else wl

/-- VPUCostModel::compressConv_replace_by_CM_CONV_VPU27, vpu_cost_model.h
lines 197-205: on devices at least VPU_2_7, a CONVOLUTION with input channels
strictly between 1 and 16 is rewritten to CM_CONVOLUTION. -/
def compressConv_replace_by_CM_CONV_VPU27 (wl : DPUWorkload) : DPUWorkload :=
  if VPUDevice.toNat VPUDevice.VPU_2_7 ≤ VPUDevice.toNat wl.device then
    if wl.op = Operation.CONVOLUTION ∧ (1 < wl.input0.channels ∧ wl.input0.channels < 16) then
      { wl with op := Operation.CM_CONVOLUTION }
    else wl
  else wl

/-- VPUCostModel::channels_preserving_operations_consistency_check,
vpu_cost_model.h lines 172-181: for ELTWISE, DW_CONVOLUTION, MAXPOOL and
AVEPOOL, when input channels differ from output channels the input shape is
rewritten to (x, y, output channels, b). -/
def channels_preserving_operations_consistency_check (wl : DPUWorkload) : DPUWorkload :=
  if wl.op = Operation.ELTWISE ∨ wl.op = Operation.DW_CONVOLUTION ∨
     wl.op = Operation.MAXPOOL ∨ wl.op = Operation.AVEPOOL then
    if wl.input0.channels ≠ wl.output0.channels then
      { wl with input0 := { x := wl.input0.x, y := wl.input0.y,
                            channels := wl.output0.channels, b := wl.input0.b } }
    else wl
  else wl

/-- The workload after the three rewrites of VPUCostModel::sanitize_workload,
vpu_cost_model.h lines 315-323, in source order: AVEPOOL replacement,
compressed convolution replacement, channel preserving consistency. The
subsequent sanitizer.check_and_sanitize call is modelled separately: per the
spec its only further rewrite is datatype normalization, which does not touch
the device, operation or shape fields modelled here. -/
def sanitizedWl (wl : DPUWorkload) : DPUWorkload :=
  channels_preserving_operations_consistency_check
    (compressConv_replace_by_CM_CONV_VPU27 (avgpool_replace_by wl))

/-- Modelled from the spec: vpu/cycles_interface_types.h is not under src/.
CyclesInterfaceType is an unsigned 32-bit cycle count whose reserved high
values encode errors. -/
abbrev CyclesInterfaceType := Nat

/-- Largest unsigned 32 bit value. -/
def UINT32_MAX : Nat := 4294967295

/-- Modelled from the spec: no error. -/
def NO_ERROR : CyclesInterfaceType := 0

/-- Modelled from the spec: workload does not fit CMX. -/
def ERROR_INPUT_TOO_BIG : CyclesInterfaceType := UINT32_MAX - 1

/-- Modelled from the spec: device, mode, padding or stride invalid. -/
def ERROR_INVALID_INPUT_CONFIGURATION : CyclesInterfaceType := UINT32_MAX - 2

/-- Modelled from the spec: operation not supported on device. -/
def ERROR_INVALID_INPUT_OPERATION : CyclesInterfaceType := UINT32_MAX - 3

/-- Modelled from the spec: the predictor returned an out of range value. -/
def ERROR_INVALID_OUTPUT_RANGE : CyclesInterfaceType := UINT32_MAX - 4

/-- Modelled from the spec: the descriptor could not be built. -/
def ERROR_INFERENCE_NOT_POSSIBLE : CyclesInterfaceType := UINT32_MAX - 5

/-- Modelled from the spec: values at or above the reserved band are error
sentinels, distinguishable from plausible cycle counts. -/
def isErrorCode (v : CyclesInterfaceType) : Bool := UINT32_MAX - 100 ≤ v

/-- The 4 billion upper validity bound on raw predictor outputs,
vpu_cost_model.h line 224. -/
def high_threshold : ℚ := 4000000000

/-- The lower validity bound on raw predictor outputs, vpu_cost_model.h
line 229. -/
def low_threshold : ℚ := 0

/-- VPUCostModel::is_NN_value_invalid, vpu_cost_model.h lines 234-240: a raw
predictor output is invalid when strictly above high_threshold or strictly
below low_threshold. -/
def is_NN_value_invalid (nn_output_cycles : ℚ) : Bool :=
  decide (high_threshold < nn_output_cycles) || decide (nn_output_cycles < low_threshold)

/-- The value written into the batched results buffer when the network is not
loaded, vpu_cost_model.h line 107. -/
def default_NN_output : ℚ := -1

/-- Environment of a VPUCostModel instance. The predictor nn models run_NN on
a sanitized workload: the preprocessing descriptor build and the LRU cache are
deterministic, so a cached value always coincides with a fresh inference.
Modelled from the spec, being code of the repository not under src/:
theoreticalCycles is DPUTheoreticalCycles (vpu/performance.h), checkValue is
the error value of the SanityReport filled by
DPU_OperationSanitizer::check_and_sanitize (vpu/validation/), powerIdealCycles
and efficiencyIdealCycles are DPU_Power_IdealCycles and
DPU_Efficency_IdealCycles, powerFactorAdjustement is
VPUPowerFactorLUT::getOperationAndPowerVirusAdjustementFactor and
powerVirusExceedFactor is VPUPowerFactorLUT::get_PowerVirus_exceed_factor.
nn_init models vpunn_runtime.initialized(). -/
structure CostModelEnv where
  nn : DPUWorkload → ℚ
  theoreticalCycles : DPUWorkload → Nat
  checkValue : DPUWorkload → CyclesInterfaceType
  nn_init : Bool
  powerIdealCycles : DPUWorkload → Nat
  efficiencyIdealCycles : DPUWorkload → Nat
  powerFactorAdjustement : DPUWorkload → ℚ
  powerVirusExceedFactor : VPUDevice → ℚ

/-- VPUCostModel::sanitize_workload, vpu_cost_model.h lines 315-323: the three
rewrites followed by the sanitizer check; returns the rewritten workload and
the report value; the workload is usable when the value is NO_ERROR. -/
def sanitize_workload (env : CostModelEnv) (wl : DPUWorkload) :
    DPUWorkload × CyclesInterfaceType :=
  let wl1 := sanitizedWl wl
  (wl1, env.checkValue wl1)

/-- VPUCostModel::DPU_and_sanitize, vpu_cost_model.h lines 475-498: start from
the sanitization report value; when usable, either gate the raw predictor
output through the validity range and take its ceiling, or, with no network
loaded, fall back to DPUTheoreticalCycles of the sanitized workload. -/
def DPU_and_sanitize (env : CostModelEnv) (wl : DPUWorkload) : CyclesInterfaceType :=
  let is_inference_posible := env.nn_init
  let sanePair := sanitize_workload env wl
  let wl1 := sanePair.1
  let is_inference_relevant := sanePair.2 = NO_ERROR
  if is_inference_relevant then
    if is_inference_posible then
      let nn_output_cycles := env.nn wl1
      if is_NN_value_invalid nn_output_cycles then ERROR_INVALID_OUTPUT_RANGE
      else (Int.ceil nn_output_cycles).toNat
    else env.theoreticalCycles wl1
  else sanePair.2

/-- VPUCostModel::DPU on a single workload, vpu_cost_model.h lines 444-469:
delegates to DPU_and_sanitize on a local copy. -/
def DPU (env : CostModelEnv) (wl : DPUWorkload) : CyclesInterfaceType :=
  DPU_and_sanitize env wl

/-- VPUCostModel::run_NN on a batch, vpu_cost_model.h lines 358-388: with no
network loaded the results buffer is filled with default_NN_output; otherwise
the predictor runs over the batch in model-batch slices, writing for index idx
the prediction of workload idx, so the buffer is the elementwise image of the
(already sanitized) workloads under the predictor. -/
def run_NN_batch (env : CostModelEnv) (workloads : List DPUWorkload) : List ℚ :=
  if env.nn_init then workloads.map env.nn
  else workloads.map (fun _ => default_NN_output)

/-- VPUCostModel::DPU on a vector of workloads, vpu_cost_model.h lines
508-556: sanitize every workload in place, tentatively run the network over
the sanitized batch, then decide each position like the single path does. -/
def DPU_batch (env : CostModelEnv) (workloads : List DPUWorkload) :
    List CyclesInterfaceType :=
  let is_inference_posible := env.nn_init
  let sanitized_wls := workloads.map sanitizedWl
  let sanity_values := sanitized_wls.map env.checkValue
  let NN_results := run_NN_batch env sanitized_wls
  (List.range workloads.length).map (fun idx =>
    let wl := sanitized_wls.getD idx defaultDPUWorkload
    let problems_value := sanity_values.getD idx NO_ERROR
    let is_inference_relevant := problems_value = NO_ERROR
    let theoretical_cycles := env.theoreticalCycles wl
    if is_inference_relevant then
      if is_inference_posible then
        let nn_output_cycles := NN_results.getD idx 0
        if is_NN_value_invalid nn_output_cycles then ERROR_INVALID_OUTPUT_RANGE
        else (Int.ceil nn_output_cycles).toNat
      else theoretical_cycles
    else problems_value)

/-- A power factor table for one operation: association list ordered by
strictly ascending key, mirroring the iteration order of the std map from
log2 of the input channel count to the measured power factor. -/
abbrev PFTable := List (Nat × ℚ)

/-- Lookup mirroring std map at: some value on a present key, none models the
out_of_range exception thrown on an absent key. -/
def mapAt (table : PFTable) (k : Nat) : Option ℚ :=
  (table.find? (fun p => p.1 == k)).map Prod.snd

/-- The VPU_2_0 rows of VPUPowerFactorLUT, power.h lines 64-88. -/
def vpu_2_0_values : List (Operation × PFTable) :=
  [ (Operation.CONVOLUTION,
      [(4, 87/100), (5, 92/100), (6, 1), (7, 95/100), (8, 86/100), (9, 87/100)]),
    (Operation.DW_CONVOLUTION, [(6, 584/100)]),
    (Operation.AVEPOOL, [(6, 3260/100)]),
    (Operation.MAXPOOL, [(6, 529/100)]),
    (Operation.ELTWISE, [(7, 23271/100)]) ]

/-- The VPU_2_7 rows of VPUPowerFactorLUT, power.h lines 91-117; the keys 5
and 6 of the convolution row are commented out in the source. -/
def vpu_2_7_values : List (Operation × PFTable) :=
  [ (Operation.CONVOLUTION,
      [(4, 197/100), (7, 120/100), (8, 108/100), (9, 107/100), (10, 101/100), (11, 97/100)]),
    (Operation.DW_CONVOLUTION, [(6, 143/100)]),
    (Operation.AVEPOOL, [(6, 29/100)]),
    (Operation.MAXPOOL, [(6, 115/100)]),
    (Operation.ELTWISE, [(8, 11/100)]) ]

/-- The full lookup table built by the VPUPowerFactorLUT constructor, power.h
lines 120-121: VPU_2_0 and VPU_2_7 only. -/
def pf_lut : List (VPUDevice × List (Operation × PFTable)) :=
  [ (VPUDevice.VPU_2_0, vpu_2_0_values), (VPUDevice.VPU_2_7, vpu_2_7_values) ]

/-- VPUPowerFactorLUT::getScaledValue, power.h lines 124-131: scale by 0.87
for VPU_2_0 floating compute, by 0.79 for VPU_2_7 integer compute, else 1. -/
def getScaledValue (value : ℚ) (fp_comp : Bool) (device : VPUDevice) : ℚ :=
  if device = VPUDevice.VPU_2_0 ∧ fp_comp = true then value * (87/100)
  else if device = VPUDevice.VPU_2_7 ∧ fp_comp = false then value * (79/100)
  else value

/-- Ceiling of log2 of 8192, the maximal input channels, power.h line 137. -/
def max_ch_log2 : Nat := 13

/-- The neighbour search loop of VPUPowerFactorLUT::getValueInterpolation,
power.h lines 143-154: walk the table in ascending key order, raising smaller
to any key at most x and lowering greater to any key at least x, stopping
early when both coincide. -/
def findBrackets : PFTable → ℚ → Nat → Nat → Nat × Nat
  | [], _, smaller, greater => (smaller, greater)
  | p :: rest, x, smaller, greater =>
    let smaller1 := if (p.1 : ℚ) ≤ x ∧ smaller < p.1 then p.1 else smaller
    let greater1 := if x ≤ (p.1 : ℚ) ∧ p.1 < greater then p.1 else greater
    if smaller1 = greater1 then (smaller1, greater1)
    else findBrackets rest x smaller1 greater1

/-- VPUPowerFactorLUT::getValueInterpolation, power.h lines 133-166, with the
float log2 of the member input channel count passed as the exact rational x.
On a positive bracket interval the table is read at both neighbours and
logarithmically interpolated; on a zero interval the table is read at the hit;
a read at an absent key models the std out_of_range exception as none. -/
def getValueInterpolation (input_ch_log2 : ℚ) (table : PFTable) : Option ℚ :=
  let sg := findBrackets table input_ch_log2 0 max_ch_log2
  let smaller := sg.1
  let greater := sg.2
  let interval : ℚ := ((greater - smaller : Nat) : ℚ)
  if 0 < interval then
    match mapAt table smaller, mapAt table greater with
    | some fs, some fg =>
        some ((((greater : ℚ) - input_ch_log2) / interval) * fs +
              ((input_ch_log2 - (smaller : ℚ)) / interval) * fg)
    | _, _ => none
  else mapAt table smaller

/-- One step of the device selection loop of VPUPowerFactorLUT::getValue,
power.h lines 192-194: keep the table of a matching device. -/
def lmStep (vpu_device : VPUDevice) (acc : List (Operation × PFTable))
    (p : VPUDevice × List (Operation × PFTable)) : List (Operation × PFTable) :=
  if p.1 = vpu_device then p.2 else acc

/-- The device selection loop of VPUPowerFactorLUT::getValue, power.h lines
192-194: the table of the last matching device, an empty table otherwise. -/
def lastMatchingDevice (vpu_device : VPUDevice) : List (Operation × PFTable) :=
  pf_lut.foldl (lmStep vpu_device) []

/-- One step of the operation loop of VPUPowerFactorLUT::getValue, power.h
lines 197-204: a thrown exception (none) aborts the loop, a matching
operation recomputes the value as the scaled interpolation of its table. -/
def pfFold (input_ch_log2 : ℚ) (op_type : Operation) (vpu_device : VPUDevice)
    (fp_comp : Bool) (acc : Option ℚ) (p : Operation × PFTable) : Option ℚ :=
  match acc with
  | none => none
  | some pf_value =>
    if p.1 = op_type then
      (getValueInterpolation input_ch_log2 p.2).map
        (fun w => getScaledValue w fp_comp vpu_device)
    else some pf_value

/-- VPUPowerFactorLUT::getValue, power.h lines 188-206, with the members
input_ch, op_type and vpu_device passed explicitly and input_ch replaced by
the value of log2 of the input channel count (exact whenever the channel
count is a power of two). The initial value 0 is kept when no operation row
matches; none models the std out_of_range exception. -/
def getValue (input_ch_log2 : ℚ) (op_type : Operation) (vpu_device : VPUDevice)
    (fp_comp : Bool) : Option ℚ :=
  (lastMatchingDevice vpu_device).foldl
    (pfFold input_ch_log2 op_type vpu_device fp_comp) (some 0)

/-- SHVElementwise::getKernelEfficiency, shave/elementwise.h lines 43-45: the
integer template efficiency divided by 1000 (bytes per cycle). -/
def SHV_getKernelEfficiency (efficiency : Nat) : ℚ :=
  (efficiency : ℚ) / 1000

/-- The C library round applied by SHVElementwise::cycles: round half away
from zero. -/
def roundHalfAwayFromZero (x : ℚ) : ℤ :=
  if 0 ≤ x then Int.floor (x + 1/2) else Int.ceil (x - 1/2)

/-- SHVElementwise::cycles, shave/elementwise.h lines 61-64: the byte size of
outputs[0] divided by the kernel efficiency, rounded by the C round and cast
to unsigned, plus the kernel latency. -/
def SHVElementwise_cycles (efficiency latency outputSize : Nat) : Nat :=
  (roundHalfAwayFromZero ((outputSize : ℚ) / SHV_getKernelEfficiency efficiency)).toNat
    + latency

/-- VPUCostModel::relative_mac_hw_utilization, vpu_cost_model.h lines
622-631: zero on an error code or a zero cycle count, otherwise the ratio of
ideal to real cycles. -/
def relative_mac_hw_utilization (real_cycles : CyclesInterfaceType)
    (ideal_cycles : Nat) : ℚ :=
  if isErrorCode real_cycles = false ∧ real_cycles ≠ 0 then
    (ideal_cycles : ℚ) / (real_cycles : ℚ)
  else 0

/-- VPUCostModel::mac_hw_utilization, vpu_cost_model.h lines 598-606: run
DPU_and_sanitize on a clone (which sanitizes it), compute the chosen ideal
cycles on the sanitized clone, and return the relative utilization. -/
def mac_hw_utilization (env : CostModelEnv) (wl : DPUWorkload)
    (CalculateCycles : DPUWorkload → Nat) : ℚ :=
  let w := sanitizedWl wl
  let nn_output_cycles := DPU_and_sanitize env wl
  let ideal_cycles := CalculateCycles w
  relative_mac_hw_utilization nn_output_cycles ideal_cycles

/-- VPUCostModel::power_mac_hw_utilization, vpu_cost_model.h lines 584-586. -/
def power_mac_hw_utilization (env : CostModelEnv) (wl : DPUWorkload) : ℚ :=
  mac_hw_utilization env wl env.powerIdealCycles

/-- VPUCostModel::efficiency_mac_hw_utilization, vpu_cost_model.h lines
589-591. -/
def efficiency_mac_hw_utilization (env : CostModelEnv) (wl : DPUWorkload) : ℚ :=
  mac_hw_utilization env wl env.efficiencyIdealCycles

/-- VPUCostModel::DPU_AgnosticActivityFactor_formula, vpu_cost_model.h lines
753-759: utilization times power factor times the experimental sparse
correction. -/
def DPU_AgnosticActivityFactor_formula (power_factor_value reference_hw_util
    sparse_correction_factor_experimental : ℚ) : ℚ :=
  (reference_hw_util * power_factor_value) * sparse_correction_factor_experimental

/-- VPUCostModel::DPU_AgnosticActivityFactor, vpu_cost_model.h lines 745-751,
with the default sparse correction factor 1. -/
def DPU_AgnosticActivityFactor (env : CostModelEnv) (wl : DPUWorkload)
    (reference_hw_util : ℚ) : ℚ :=
  DPU_AgnosticActivityFactor_formula (env.powerFactorAdjustement wl)
    reference_hw_util 1

/-- VPUCostModel::DPU_PowerActivityFactor, vpu_cost_model.h lines 719-734:
the agnostic activity factor at the power mac utilization, clamped by the
device power virus exceed factor. -/
def DPU_PowerActivityFactor (env : CostModelEnv) (wl : DPUWorkload) : ℚ :=
  let mac_utilization_rate := power_mac_hw_utilization env wl
  let rough := DPU_AgnosticActivityFactor env wl mac_utilization_rate
  let maximum_acepted_af := env.powerVirusExceedFactor wl.device
  min rough maximum_acepted_af

/-- VPUCostModel::DPU_EfficiencyActivityFactor, vpu_cost_model.h lines
736-742: the agnostic activity factor at the efficiency mac utilization, with
no limitation applied. -/
def DPU_EfficiencyActivityFactor (env : CostModelEnv) (wl : DPUWorkload) : ℚ :=
  let mac_utilization_rate := efficiency_mac_hw_utilization env wl
  DPU_AgnosticActivityFactor env wl mac_utilization_rate

/-- A VPU_2_7 convolution with 8 input channels, in the compressed rewrite
window. -/
def wl_conv27 : DPUWorkload :=
  { device := VPUDevice.VPU_2_7, op := Operation.CONVOLUTION,
    input0 := { x := 56, y := 56, channels := 8, b := 1 },
    output0 := { x := 56, y := 56, channels := 64, b := 1 } }

/-- A VPU_2_7 max pooling whose input and output channel counts disagree. -/
def wl_maxpool : DPUWorkload :=
  { device := VPUDevice.VPU_2_7, op := Operation.MAXPOOL,
    input0 := { x := 7, y := 7, channels := 64, b := 1 },
    output0 := { x := 7, y := 7, channels := 32, b := 1 } }

/-- A VPU_2_7 average pooling workload. -/
def wl_avgpool : DPUWorkload :=
  { device := VPUDevice.VPU_2_7, op := Operation.AVEPOOL,
    input0 := { x := 14, y := 14, channels := 256, b := 1 },
    output0 := { x := 14, y := 14, channels := 256, b := 1 } }

/-- A VPU_2_0 convolution with 64 channels, untouched by every rewrite. -/
def wl_conv20 : DPUWorkload :=
  { device := VPUDevice.VPU_2_0, op := Operation.CONVOLUTION,
    input0 := { x := 56, y := 56, channels := 64, b := 1 },
    output0 := { x := 56, y := 56, channels := 64, b := 1 } }

/-- An environment whose loaded predictor answers exactly the upper validity
threshold on every descriptor and whose sanitizer check always passes. -/
def env_hi : CostModelEnv :=
  { nn := fun _ => high_threshold,
    theoreticalCycles := fun _ => 0,
    checkValue := fun _ => NO_ERROR,
    nn_init := true,
    powerIdealCycles := fun _ => 0,
    efficiencyIdealCycles := fun _ => 0,
    powerFactorAdjustement := fun _ => 0,
    powerVirusExceedFactor := fun _ => 0 }

/-- An environment with a loaded predictor returning a plain in-range value
and a passing sanitizer check. -/
def envA : CostModelEnv :=
  { nn := fun _ => 1000,
    theoreticalCycles := fun _ => 2000,
    checkValue := fun _ => NO_ERROR,
    nn_init := true,
    powerIdealCycles := fun _ => 700,
    efficiencyIdealCycles := fun _ => 900,
    powerFactorAdjustement := fun _ => 1,
    powerVirusExceedFactor := fun _ => 13/10 }

/-- An environment whose sanitizer check reports that every workload is too
big for CMX. -/
def envErr : CostModelEnv :=
  { nn := fun _ => 1000,
    theoreticalCycles := fun _ => 2000,
    checkValue := fun _ => ERROR_INPUT_TOO_BIG,
    nn_init := true,
    powerIdealCycles := fun _ => 700,
    efficiencyIdealCycles := fun _ => 900,
    powerFactorAdjustement := fun _ => 1,
    powerVirusExceedFactor := fun _ => 13/10 }

/-- An environment with a passing sanitizer check and no loaded predictor. -/
def envNoNN : CostModelEnv :=
  { nn := fun _ => 1000,
    theoreticalCycles := fun _ => 2000,
    checkValue := fun _ => NO_ERROR,
    nn_init := false,
    powerIdealCycles := fun _ => 700,
    efficiencyIdealCycles := fun _ => 900,
    powerFactorAdjustement := fun _ => 1,
    powerVirusExceedFactor := fun _ => 13/10 }

theorem compress_noop_of_op_ne (wl : DPUWorkload)
    (h : wl.op ≠ Operation.CONVOLUTION) :
    compressConv_replace_by_CM_CONV_VPU27 wl = wl := by
  unfold compressConv_replace_by_CM_CONV_VPU27
  split
  · split
    · rename_i hcond
      exact absurd hcond.1 h
    · rfl
  · rfl

theorem avgpool_preserves_rest (wl : DPUWorkload) :
    (avgpool_replace_by wl).device = wl.device ∧
    (avgpool_replace_by wl).input0 = wl.input0 ∧
    (avgpool_replace_by wl).output0 = wl.output0 := by
  unfold avgpool_replace_by
  split <;> exact ⟨rfl, rfl, rfl⟩

theorem compress_preserves_rest (wl : DPUWorkload) :
    (compressConv_replace_by_CM_CONV_VPU27 wl).device = wl.device ∧
    (compressConv_replace_by_CM_CONV_VPU27 wl).input0 = wl.input0 ∧
    (compressConv_replace_by_CM_CONV_VPU27 wl).output0 = wl.output0 := by
  unfold compressConv_replace_by_CM_CONV_VPU27
  split
  · split <;> exact ⟨rfl, rfl, rfl⟩
  · exact ⟨rfl, rfl, rfl⟩

theorem channels_preserves_op (wl : DPUWorkload) :
    (channels_preserving_operations_consistency_check wl).op = wl.op ∧
    (channels_preserving_operations_consistency_check wl).device = wl.device ∧
    (channels_preserving_operations_consistency_check wl).output0 = wl.output0 := by
  unfold channels_preserving_operations_consistency_check
  split
  · split <;> exact ⟨rfl, rfl, rfl⟩
  · exact ⟨rfl, rfl, rfl⟩

/-- C8: a workload whose operation is AveragePool is rewritten by
avgpool_replace_by to DepthwiseConvolution, touching only the operation
field; after the full sanitization its operation is DepthwiseConvolution; on
any other operation the rewrite is the identity. -/
theorem claim_C8 (wl : DPUWorkload) :
    (wl.op = Operation.AVEPOOL →
      avgpool_replace_by wl = { wl with op := Operation.DW_CONVOLUTION } ∧
      (sanitizedWl wl).op = Operation.DW_CONVOLUTION) ∧
    (wl.op ≠ Operation.AVEPOOL → avgpool_replace_by wl = wl) := by
  constructor
  · intro h
    have ha : avgpool_replace_by wl = { wl with op := Operation.DW_CONVOLUTION } := by
      unfold avgpool_replace_by
      simp [h]
    refine ⟨ha, ?_⟩
    unfold sanitizedWl
    rw [ha]
    have hc : compressConv_replace_by_CM_CONV_VPU27
        { wl with op := Operation.DW_CONVOLUTION } =
        { wl with op := Operation.DW_CONVOLUTION } :=
      compress_noop_of_op_ne _ (by simp)
    rw [hc]
    have := channels_preserves_op { wl with op := Operation.DW_CONVOLUTION }
    rw [this.1]
  · intro h
    unfold avgpool_replace_by
    simp [h]

/-- Witness for C8 at the concrete average pooling workload. -/
theorem claim_C8_witness :
    wl_avgpool.op = Operation.AVEPOOL ∧
    (sanitizedWl wl_avgpool).op = Operation.DW_CONVOLUTION :=
  ⟨rfl, ((claim_C8 wl_avgpool).1 rfl).2⟩

/-- C3: on a device at least VPU_2_7, a Convolution with input channel count
strictly between 1 and 16 carries operation CompressedConvolution after the
full sanitization; whenever the trigger condition fails, the compressed
convolution rewrite leaves the operation unchanged. -/
theorem claim_C3 (wl : DPUWorkload) :
    (VPUDevice.toNat VPUDevice.VPU_2_7 ≤ VPUDevice.toNat wl.device →
      wl.op = Operation.CONVOLUTION →
      1 < wl.input0.channels → wl.input0.channels < 16 →
      (sanitizedWl wl).op = Operation.CM_CONVOLUTION) ∧
    (¬(VPUDevice.toNat VPUDevice.VPU_2_7 ≤ VPUDevice.toNat wl.device ∧
        wl.op = Operation.CONVOLUTION ∧
        1 < wl.input0.channels ∧ wl.input0.channels < 16) →
      (compressConv_replace_by_CM_CONV_VPU27 wl).op = wl.op) := by
  constructor
  · intro hdev hop h1 h16
    have ha : avgpool_replace_by wl = wl := by
      unfold avgpool_replace_by
      simp [hop]
    have hc : compressConv_replace_by_CM_CONV_VPU27 wl =
        { wl with op := Operation.CM_CONVOLUTION } := by
      unfold compressConv_replace_by_CM_CONV_VPU27
      rw [if_pos hdev, if_pos ⟨hop, h1, h16⟩]
    unfold sanitizedWl
    rw [ha, hc]
    have := channels_preserves_op { wl with op := Operation.CM_CONVOLUTION }
    rw [this.1]
  · intro hneg
    unfold compressConv_replace_by_CM_CONV_VPU27
    split
    · rename_i hdev
      split
      · rename_i hcond
        exact absurd ⟨hdev, hcond⟩ hneg
      · rfl
    · rfl

/-- Witness for C3 at the concrete VPU_2_7 convolution with 8 channels. -/
theorem claim_C3_witness :
    VPUDevice.toNat VPUDevice.VPU_2_7 ≤ VPUDevice.toNat wl_conv27.device ∧
    wl_conv27.op = Operation.CONVOLUTION ∧
    1 < wl_conv27.input0.channels ∧ wl_conv27.input0.channels < 16 ∧
    (sanitizedWl wl_conv27).op = Operation.CM_CONVOLUTION :=
  ⟨by decide, rfl, by decide, by decide,
    (claim_C3 wl_conv27).1 (by decide) rfl (by decide) (by decide)⟩

/-- C4: when the operation after the two operation rewrites is channel
preserving (Eltwise, depthwise convolution, max pooling or average pooling),
the sanitized workload has equal input and output channel counts, obtained by
setting the input channels to the output channels: the output tensor and the
input x, y and batch components are those of the original workload. -/
theorem claim_C4 (wl : DPUWorkload)
    (h : (compressConv_replace_by_CM_CONV_VPU27 (avgpool_replace_by wl)).op =
           Operation.ELTWISE ∨
         (compressConv_replace_by_CM_CONV_VPU27 (avgpool_replace_by wl)).op =
           Operation.DW_CONVOLUTION ∨
         (compressConv_replace_by_CM_CONV_VPU27 (avgpool_replace_by wl)).op =
           Operation.MAXPOOL ∨
         (compressConv_replace_by_CM_CONV_VPU27 (avgpool_replace_by wl)).op =
           Operation.AVEPOOL) :
    (sanitizedWl wl).input0.channels = (sanitizedWl wl).output0.channels ∧
    (sanitizedWl wl).output0 = wl.output0 ∧
    (sanitizedWl wl).input0.x = wl.input0.x ∧
    (sanitizedWl wl).input0.y = wl.input0.y ∧
    (sanitizedWl wl).input0.b = wl.input0.b ∧
    (sanitizedWl wl).input0.channels = wl.output0.channels := by
  have ha := avgpool_preserves_rest wl
  have hc := compress_preserves_rest (avgpool_replace_by wl)
  have hin : (compressConv_replace_by_CM_CONV_VPU27 (avgpool_replace_by wl)).input0 =
      wl.input0 := by rw [hc.2.1, ha.2.1]
  have hout : (compressConv_replace_by_CM_CONV_VPU27 (avgpool_replace_by wl)).output0 =
      wl.output0 := by rw [hc.2.2, ha.2.2]
  unfold sanitizedWl channels_preserving_operations_consistency_check
  rw [if_pos h]
  split
  · simp [hin, hout]
  · rename_i hch
    rw [not_not] at hch
    rw [hin, hout] at hch
    simp [hin, hout, hch]

/-- Witness for C4 at the concrete max pooling workload with mismatched
channels. -/
theorem claim_C4_witness :
    ((compressConv_replace_by_CM_CONV_VPU27 (avgpool_replace_by wl_maxpool)).op =
        Operation.ELTWISE ∨
      (compressConv_replace_by_CM_CONV_VPU27 (avgpool_replace_by wl_maxpool)).op =
        Operation.DW_CONVOLUTION ∨
      (compressConv_replace_by_CM_CONV_VPU27 (avgpool_replace_by wl_maxpool)).op =
        Operation.MAXPOOL ∨
      (compressConv_replace_by_CM_CONV_VPU27 (avgpool_replace_by wl_maxpool)).op =
        Operation.AVEPOOL) ∧
    (sanitizedWl wl_maxpool).input0.channels = (sanitizedWl wl_maxpool).output0.channels ∧
    (sanitizedWl wl_maxpool).input0.channels = wl_maxpool.output0.channels :=
  ⟨by decide,
    (claim_C4 wl_maxpool (by decide)).1,
    (claim_C4 wl_maxpool (by decide)).2.2.2.2.2⟩

/-- C9: when the sanitizer reports a problem, DPU returns exactly the report
value and is independent of the predictor; when the sanitizer passes and no
predictor is loaded, DPU returns the theoretical cycles of the sanitized
workload. -/
theorem claim_C9 (env : CostModelEnv) (wl : DPUWorkload) :
    (env.checkValue (sanitizedWl wl) ≠ NO_ERROR →
      DPU env wl = env.checkValue (sanitizedWl wl) ∧
      ∀ nn1 nn2 : DPUWorkload → ℚ,
        DPU { env with nn := nn1 } wl = DPU { env with nn := nn2 } wl) ∧
    (env.checkValue (sanitizedWl wl) = NO_ERROR → env.nn_init = false →
      DPU env wl = env.theoreticalCycles (sanitizedWl wl)) := by
  constructor
  · intro h
    constructor
    · unfold DPU DPU_and_sanitize sanitize_workload
      simp [h]
    · intro nn1 nn2
      unfold DPU DPU_and_sanitize sanitize_workload
      simp [h]
  · intro h hinit
    unfold DPU DPU_and_sanitize sanitize_workload
    simp [h, hinit]

/-- Witness for C9: the failing sanitizer env returns its error code through
DPU, and the uninitialized env falls back to the theoretical cycles. -/
theorem claim_C9_witness :
    envErr.checkValue (sanitizedWl wl_conv20) ≠ NO_ERROR ∧
    DPU envErr wl_conv20 = envErr.checkValue (sanitizedWl wl_conv20) ∧
    envNoNN.checkValue (sanitizedWl wl_conv20) = NO_ERROR ∧
    envNoNN.nn_init = false ∧
    DPU envNoNN wl_conv20 = envNoNN.theoreticalCycles (sanitizedWl wl_conv20) :=
  ⟨by decide,
    ((claim_C9 envErr wl_conv20).1 (by decide)).1,
    rfl, rfl,
    (claim_C9 envNoNN wl_conv20).2 rfl rfl⟩

theorem ceil_toNat_le_of_le_high (r : ℚ) (h : r ≤ high_threshold) :
    (Int.ceil r).toNat ≤ 4000000000 := by
  have hc : Int.ceil r ≤ Int.ceil high_threshold := Int.ceil_le_ceil h
  have he : Int.ceil high_threshold = (4000000000 : ℤ) := by
    unfold high_threshold
    norm_num
  rw [he] at hc
  have := Int.toNat_le_toNat hc
  simpa using this

/-- C1 (amended): with a passing sanitizer check and a loaded predictor, DPU
returns ERROR_INVALID_OUTPUT_RANGE exactly when the raw predictor output is
strictly below 0 or strictly above the 4 billion threshold; a raw output
equal to 0 or equal to the threshold is accepted, and every accepted raw
output is returned as its ceiling. -/
theorem claim_C1 (env : CostModelEnv) (wl : DPUWorkload)
    (hs : env.checkValue (sanitizedWl wl) = NO_ERROR)
    (hi : env.nn_init = true) :
    (DPU env wl = ERROR_INVALID_OUTPUT_RANGE ↔
      (env.nn (sanitizedWl wl) < low_threshold ∨
       high_threshold < env.nn (sanitizedWl wl))) ∧
    (low_threshold ≤ env.nn (sanitizedWl wl) →
     env.nn (sanitizedWl wl) ≤ high_threshold →
      DPU env wl = (Int.ceil (env.nn (sanitizedWl wl))).toNat) := by
  have hrange : ∀ r : ℚ, r ≤ high_threshold →
      (Int.ceil r).toNat ≠ ERROR_INVALID_OUTPUT_RANGE := by
    intro r hr
    have h1 := ceil_toNat_le_of_le_high r hr
    intro heq
    rw [heq] at h1
    revert h1
    decide
  constructor
  · unfold DPU DPU_and_sanitize sanitize_workload
    simp only [hs, hi, if_true, if_pos rfl]
    by_cases hv : is_NN_value_invalid (env.nn (sanitizedWl wl)) = true
    · have hv2 : high_threshold < env.nn (sanitizedWl wl) ∨
          env.nn (sanitizedWl wl) < low_threshold := by
        unfold is_NN_value_invalid at hv
        simpa using hv
      simp [hv, hv2]
      tauto
    · have hv3 : ¬(high_threshold < env.nn (sanitizedWl wl)) ∧
          ¬(env.nn (sanitizedWl wl) < low_threshold) := by
        unfold is_NN_value_invalid at hv
        simpa using hv
      rw [Bool.not_eq_true] at hv
      simp only [hv, Bool.false_eq_true, if_false]
      constructor
      · intro habs
        exact absurd habs (hrange _ (le_of_not_lt hv3.1))
      · intro habs
        rcases habs with h | h
        · exact absurd h hv3.2
        · exact absurd h hv3.1
  · intro hlo hhi
    unfold DPU DPU_and_sanitize sanitize_workload
    have hv : is_NN_value_invalid (env.nn (sanitizedWl wl)) = false := by
      unfold is_NN_value_invalid
      simp only [Bool.or_eq_false_iff, decide_eq_false_iff_not, not_lt]
      exact ⟨hhi, hlo⟩
    simp [hs, hi, hv]

/-- Counterexample to C1 as stated: with a loaded predictor answering exactly
the high threshold on a workload that passes sanitization, DPU accepts the
output and returns 4000000000 rather than ERROR_INVALID_OUTPUT_RANGE. -/
theorem claim_C1_counterexample :
    DPU env_hi wl_conv20 = 4000000000 ∧
    DPU env_hi wl_conv20 ≠ ERROR_INVALID_OUTPUT_RANGE := by
  constructor
  · decide
  · decide

/-- Witness for the amended C1 at the threshold-valued predictor. -/
theorem claim_C1_witness :
    env_hi.checkValue (sanitizedWl wl_conv20) = NO_ERROR ∧
    env_hi.nn_init = true ∧
    low_threshold ≤ env_hi.nn (sanitizedWl wl_conv20) ∧
    env_hi.nn (sanitizedWl wl_conv20) ≤ high_threshold ∧
    DPU env_hi wl_conv20 = (Int.ceil (env_hi.nn (sanitizedWl wl_conv20))).toNat :=
  ⟨rfl, rfl, by decide, by decide,
    (claim_C1 env_hi wl_conv20 rfl rfl).2 (by decide) (by decide)⟩

/-- Counterexample to C5 as stated: an element-wise kernel with template
efficiency 3000 (3 bytes per cycle) and latency 7 on an output of 10 bytes
computes 10 cycles with the C round, while the claimed ceiling formula gives
11. -/
theorem claim_C5_counterexample :
    SHVElementwise_cycles 3000 7 10 = 10 ∧
    (Int.ceil ((10 : ℚ) / SHV_getKernelEfficiency 3000)).toNat + 7 = 11 ∧
    SHVElementwise_cycles 3000 7 10 ≠
      (Int.ceil ((10 : ℚ) / SHV_getKernelEfficiency 3000)).toNat + 7 := by
  have h1 : ((10 : ℕ) : ℚ) / SHV_getKernelEfficiency 3000 = 10/3 := by
    unfold SHV_getKernelEfficiency
    norm_num
  have h1q : (10 : ℚ) / SHV_getKernelEfficiency 3000 = 10/3 := by
    unfold SHV_getKernelEfficiency
    norm_num
  have h2 : Int.floor ((10 : ℚ)/3 + 1/2) = 3 := by
    norm_num [Int.floor_eq_iff]
  have h3 : Int.ceil ((10 : ℚ)/3) = 4 := by
    norm_num [Int.ceil_eq_iff]
  have hc : SHVElementwise_cycles 3000 7 10 = 10 := by
    unfold SHVElementwise_cycles roundHalfAwayFromZero
    rw [h1, if_pos (by norm_num), h2]
    decide
  have hd : (Int.ceil ((10 : ℚ) / SHV_getKernelEfficiency 3000)).toNat + 7 = 11 := by
    rw [h1q, h3]
    decide
  refine ⟨hc, hd, ?_⟩
  rw [hc, hd]
  decide

/-- C5 (amended): the element-wise SHAVE kernel cost is the output byte size
divided by the efficiency, rounded half away from zero (the C round), plus
the latency; this value is bounded below by the floor form and above by the
ceiling form of the claimed formula. -/
theorem claim_C5 (efficiency latency outputSize : Nat) (h : 0 < efficiency) :
    SHVElementwise_cycles efficiency latency outputSize =
      (roundHalfAwayFromZero ((outputSize : ℚ) * 1000 / (efficiency : ℚ))).toNat
        + latency ∧
    (Int.floor ((outputSize : ℚ) * 1000 / (efficiency : ℚ))).toNat + latency ≤
      SHVElementwise_cycles efficiency latency outputSize ∧
    SHVElementwise_cycles efficiency latency outputSize ≤
      (Int.ceil ((outputSize : ℚ) * 1000 / (efficiency : ℚ))).toNat + latency := by
  have heff : (efficiency : ℚ) ≠ 0 := by
    exact_mod_cast Nat.pos_iff_ne_zero.mp h
  have hq : (outputSize : ℚ) / SHV_getKernelEfficiency efficiency =
      (outputSize : ℚ) * 1000 / (efficiency : ℚ) := by
    unfold SHV_getKernelEfficiency
    field_simp
  have hq0 : 0 ≤ (outputSize : ℚ) * 1000 / (efficiency : ℚ) := by
    apply div_nonneg
    · positivity
    · positivity
  have hround : roundHalfAwayFromZero ((outputSize : ℚ) * 1000 / (efficiency : ℚ)) =
      Int.floor ((outputSize : ℚ) * 1000 / (efficiency : ℚ) + 1/2) := by
    unfold roundHalfAwayFromZero
    rw [if_pos hq0]
  refine ⟨?_, ?_, ?_⟩
  · unfold SHVElementwise_cycles
    rw [hq]
  · unfold SHVElementwise_cycles
    rw [hq, hround]
    have hmono : Int.floor ((outputSize : ℚ) * 1000 / (efficiency : ℚ)) ≤
        Int.floor ((outputSize : ℚ) * 1000 / (efficiency : ℚ) + 1/2) := by
      apply Int.floor_le_floor
      linarith
    exact Nat.add_le_add_right (Int.toNat_le_toNat hmono) latency
  · unfold SHVElementwise_cycles
    rw [hq, hround]
    have hlt : Int.floor ((outputSize : ℚ) * 1000 / (efficiency : ℚ) + 1/2) <
        Int.ceil ((outputSize : ℚ) * 1000 / (efficiency : ℚ)) + 1 := by
      rw [Int.floor_lt]
      push_cast
      have := Int.le_ceil ((outputSize : ℚ) * 1000 / (efficiency : ℚ))
      linarith
    have hle := Int.lt_add_one_iff.mp hlt
    exact Nat.add_le_add_right (Int.toNat_le_toNat hle) latency

/-- Witness for the amended C5 at efficiency 3000, latency 7, output size
10. -/
theorem claim_C5_witness :
    0 < 3000 ∧
    SHVElementwise_cycles 3000 7 10 =
      (roundHalfAwayFromZero ((10 : ℚ) * 1000 / (3000 : ℚ))).toNat + 7 :=
  ⟨by decide, (claim_C5 3000 7 10 (by decide)).1⟩

/-- C7: the power activity factor is the power mac utilization times the
power factor, clamped from above by the device power virus exceed factor, so
it never exceeds that ceiling; the efficiency activity factor is the
unclamped product of the efficiency mac utilization and the power factor. -/
theorem claim_C7 (env : CostModelEnv) (wl : DPUWorkload) :
    DPU_PowerActivityFactor env wl =
      min (power_mac_hw_utilization env wl * env.powerFactorAdjustement wl)
          (env.powerVirusExceedFactor wl.device) ∧
    DPU_PowerActivityFactor env wl ≤ env.powerVirusExceedFactor wl.device ∧
    DPU_EfficiencyActivityFactor env wl =
      efficiency_mac_hw_utilization env wl * env.powerFactorAdjustement wl := by
  refine ⟨?_, ?_, ?_⟩
  · simp [DPU_PowerActivityFactor, DPU_AgnosticActivityFactor,
      DPU_AgnosticActivityFactor_formula]
  · simp only [DPU_PowerActivityFactor]
    exact min_le_right _ _
  · simp [DPU_EfficiencyActivityFactor, DPU_AgnosticActivityFactor,
      DPU_AgnosticActivityFactor_formula]

/-- C2: the batched DPU entry point returns one element per input workload,
in input order, and at every index the very value the single-workload DPU
returns on that workload (the predictor being a fixed function of the
sanitized workload, which subsumes the cache warming of the single path). -/
theorem claim_C2 (env : CostModelEnv) (workloads : List DPUWorkload) :
    (DPU_batch env workloads).length = workloads.length ∧
    ∀ i, i < workloads.length →
      (DPU_batch env workloads).getD i 0 =
        DPU env (workloads.getD i defaultDPUWorkload) := by
  constructor
  · unfold DPU_batch
    simp
  · intro i h
    have hw : workloads.getD i defaultDPUWorkload = workloads[i] := by
      simp [List.getD_eq_getElem?_getD, List.getElem?_eq_getElem h]
    by_cases hini : env.nn_init
    · unfold DPU_batch run_NN_batch DPU DPU_and_sanitize sanitize_workload
      simp [hini, hw, List.getD_eq_getElem?_getD, List.getElem?_range, h,
        List.getElem?_eq_getElem]
    · unfold DPU_batch run_NN_batch DPU DPU_and_sanitize sanitize_workload
      simp [hini, hw, List.getD_eq_getElem?_getD, List.getElem?_range, h,
        List.getElem?_eq_getElem]

/-- Witness for C2 on a singleton batch under the plain environment. -/
theorem claim_C2_witness :
    0 < [wl_conv20].length ∧
    (DPU_batch envA [wl_conv20]).getD 0 0 =
      DPU envA ([wl_conv20].getD 0 defaultDPUWorkload) :=
  ⟨by decide, (claim_C2 envA [wl_conv20]).2 0 (by decide)⟩

theorem findBrackets_cons (p : Nat × ℚ) (rest : PFTable) (x : ℚ) (s g : Nat) :
    findBrackets (p :: rest) x s g =
      if (if (p.1 : ℚ) ≤ x ∧ s < p.1 then p.1 else s) =
         (if x ≤ (p.1 : ℚ) ∧ p.1 < g then p.1 else g) then
        ((if (p.1 : ℚ) ≤ x ∧ s < p.1 then p.1 else s),
         (if x ≤ (p.1 : ℚ) ∧ p.1 < g then p.1 else g))
      else
        findBrackets rest x (if (p.1 : ℚ) ≤ x ∧ s < p.1 then p.1 else s)
          (if x ≤ (p.1 : ℚ) ∧ p.1 < g then p.1 else g) := rfl

theorem findBrackets_skip : ∀ (t : PFTable) (x : ℚ) (s g : Nat), s ≠ g →
    (∀ p ∈ t, ¬((p.1 : ℚ) ≤ x ∧ s < p.1)) →
    (∀ p ∈ t, ¬(x ≤ (p.1 : ℚ) ∧ p.1 < g)) →
    findBrackets t x s g = (s, g)
  | [], _, _, _, _, _, _ => rfl
  | p :: rest, x, s, g, hne, h1, h2 => by
    rw [findBrackets_cons,
        if_neg (h1 p (List.mem_cons_self p rest)),
        if_neg (h2 p (List.mem_cons_self p rest)), if_neg hne]
    exact findBrackets_skip rest x s g hne
      (fun q hq => h1 q (List.mem_cons_of_mem p hq))
      (fun q hq => h2 q (List.mem_cons_of_mem p hq))

theorem findBrackets_exact : ∀ (t : PFTable) (x : ℚ) (k : Nat) (v : ℚ) (s0 g0 : Nat),
    List.Pairwise (fun a b : Nat × ℚ => a.1 < b.1) t →
    (∀ p ∈ t, s0 < p.1 ∧ p.1 < g0) →
    (k, v) ∈ t → x = (k : ℚ) →
    findBrackets t x s0 g0 = (k, k)
  | [], _, k, v, _, _, _, _, hm, _ => absurd hm (List.not_mem_nil (k, v))
  | p :: rest, x, k, v, s0, g0, hp, hb, hm, hx => by
    have hbp := hb p (List.mem_cons_self p rest)
    rcases List.mem_cons.mp hm with heq | htail
    · have hk : p.1 = k := by rw [← heq]
      rw [findBrackets_cons, hk]
      rw [if_pos (show (k : ℚ) ≤ x ∧ s0 < k from ⟨le_of_eq hx.symm, hk ▸ hbp.1⟩),
          if_pos (show x ≤ (k : ℚ) ∧ k < g0 from ⟨le_of_eq hx, hk ▸ hbp.2⟩),
          if_pos rfl]
    · have hlt : p.1 < k := (List.pairwise_cons.mp hp).1 (k, v) htail
      have hltq : (p.1 : ℚ) < x := by
        rw [hx]
        exact_mod_cast hlt
      rw [findBrackets_cons,
          if_pos (show (p.1 : ℚ) ≤ x ∧ s0 < p.1 from ⟨le_of_lt hltq, hbp.1⟩),
          if_neg (show ¬(x ≤ (p.1 : ℚ) ∧ p.1 < g0) from
            fun hc => absurd hc.1 (not_le.mpr hltq)),
          if_neg (Nat.ne_of_lt hbp.2)]
      exact findBrackets_exact rest x k v p.1 g0 (List.pairwise_cons.mp hp).2
        (fun q hq => ⟨(List.pairwise_cons.mp hp).1 q hq,
          (hb q (List.mem_cons_of_mem p hq)).2⟩) htail hx

theorem findBrackets_aboveS : ∀ (t : PFTable) (x : ℚ) (s g : Nat) (fg : ℚ) (g0 : Nat),
    List.Pairwise (fun a b : Nat × ℚ => a.1 < b.1) t →
    (∀ p ∈ t, p.1 < g0) →
    (g, fg) ∈ t →
    (∀ p ∈ t, g ≤ p.1) →
    (s : ℚ) < x → x < (g : ℚ) →
    findBrackets t x s g0 = (s, g)
  | [], _, _, g, fg, _, _, _, hm, _, _, _ => absurd hm (List.not_mem_nil (g, fg))
  | p :: rest, x, s, g, fg, g0, hp, hg0, hm, hge, hsx, hxg => by
    have hsg : s < g := by exact_mod_cast hsx.trans hxg
    have hpg : p.1 = g := by
      rcases List.mem_cons.mp hm with heq | htail
      · rw [← heq]
      · have h1 := (List.pairwise_cons.mp hp).1 (g, fg) htail
        have h2 := hge p (List.mem_cons_self p rest)
        omega
    have hbg0 : g < g0 := hpg ▸ hg0 p (List.mem_cons_self p rest)
    rw [findBrackets_cons, hpg,
        if_neg (show ¬((g : ℚ) ≤ x ∧ s < g) from
          fun hc => absurd hc.1 (not_le.mpr hxg)),
        if_pos (show x ≤ (g : ℚ) ∧ g < g0 from ⟨le_of_lt hxg, hbg0⟩),
        if_neg (Nat.ne_of_lt hsg)]
    refine findBrackets_skip rest x s g (Nat.ne_of_lt hsg) ?_ ?_
    · intro q hq hc
      have hq2 : g < q.1 := by
        have := (List.pairwise_cons.mp hp).1 q hq
        omega
      have hq3 : (g : ℚ) < (q.1 : ℚ) := by exact_mod_cast hq2
      exact absurd hc.1 (not_le.mpr (hxg.trans hq3))
    · intro q hq hc
      have hq2 : g < q.1 := by
        have := (List.pairwise_cons.mp hp).1 q hq
        omega
      obtain ⟨-, hc2⟩ := hc
      omega

theorem findBrackets_mid : ∀ (t : PFTable) (x : ℚ) (s g : Nat) (fs fg : ℚ)
    (s0 g0 : Nat),
    List.Pairwise (fun a b : Nat × ℚ => a.1 < b.1) t →
    (∀ p ∈ t, s0 < p.1 ∧ p.1 < g0) →
    (s, fs) ∈ t → (g, fg) ∈ t →
    (s : ℚ) < x → x < (g : ℚ) →
    (∀ p ∈ t, p.1 ≤ s ∨ g ≤ p.1) →
    findBrackets t x s0 g0 = (s, g)
  | [], _, s, _, fs, _, _, _, _, _, hsm, _, _, _, _ =>
      absurd hsm (List.not_mem_nil (s, fs))
  | p :: rest, x, s, g, fs, fg, s0, g0, hp, hb, hsm, hgm, hsx, hxg, hsep => by
    have hsg : s < g := by exact_mod_cast hsx.trans hxg
    have hbp := hb p (List.mem_cons_self p rest)
    have hps : p.1 ≤ s := by
      rcases hsep p (List.mem_cons_self p rest) with h | h
      · exact h
      · exfalso
        rcases List.mem_cons.mp hsm with heq | htail
        · rw [← heq] at h
          omega
        · have := (List.pairwise_cons.mp hp).1 (s, fs) htail
          omega
    rcases Nat.lt_or_ge p.1 s with hlt | hge2
    · have hgtail : (g, fg) ∈ rest := by
        rcases List.mem_cons.mp hgm with heq | htail
        · exfalso
          rw [← heq] at hlt
          omega
        · exact htail
      have hstail : (s, fs) ∈ rest := by
        rcases List.mem_cons.mp hsm with heq | htail
        · exfalso
          rw [← heq] at hlt
          omega
        · exact htail
      have hpxq : (p.1 : ℚ) < x := by
        have h1 : (p.1 : ℚ) < (s : ℚ) := by exact_mod_cast hlt
        exact h1.trans hsx
      rw [findBrackets_cons,
          if_pos (show (p.1 : ℚ) ≤ x ∧ s0 < p.1 from ⟨le_of_lt hpxq, hbp.1⟩),
          if_neg (show ¬(x ≤ (p.1 : ℚ) ∧ p.1 < g0) from
            fun hc => absurd hc.1 (not_le.mpr hpxq)),
          if_neg (Nat.ne_of_lt hbp.2)]
      exact findBrackets_mid rest x s g fs fg p.1 g0 (List.pairwise_cons.mp hp).2
        (fun q hq => ⟨(List.pairwise_cons.mp hp).1 q hq,
          (hb q (List.mem_cons_of_mem p hq)).2⟩)
        hstail hgtail hsx hxg
        (fun q hq => hsep q (List.mem_cons_of_mem p hq))
    · have hpeq : p.1 = s := le_antisymm hps hge2
      have hgtail : (g, fg) ∈ rest := by
        rcases List.mem_cons.mp hgm with heq | htail
        · exfalso
          rw [← heq] at hpeq
          omega
        · exact htail
      have hbg0 : s < g0 := hpeq ▸ hbp.2
      rw [findBrackets_cons, hpeq,
          if_pos (show (s : ℚ) ≤ x ∧ s0 < s from ⟨le_of_lt hsx, hpeq ▸ hbp.1⟩),
          if_neg (show ¬(x ≤ (s : ℚ) ∧ s < g0) from
            fun hc => absurd hc.1 (not_le.mpr hsx)),
          if_neg (Nat.ne_of_lt hbg0)]
      refine findBrackets_aboveS rest x s g fg g0 (List.pairwise_cons.mp hp).2
        (fun q hq => (hb q (List.mem_cons_of_mem p hq)).2) hgtail ?_ hsx hxg
      intro q hq
      have hq2 : s < q.1 := by
        have := (List.pairwise_cons.mp hp).1 q hq
        omega
      rcases hsep q (List.mem_cons_of_mem p hq) with h | h
      · omega
      · exact h

theorem mapAt_eq_some : ∀ (t : PFTable) (k : Nat) (v : ℚ),
    List.Pairwise (fun a b : Nat × ℚ => a.1 < b.1) t →
    (k, v) ∈ t → mapAt t k = some v
  | [], k, v, _, hm => absurd hm (List.not_mem_nil (k, v))
  | p :: rest, k, v, hp, hm => by
    rcases List.mem_cons.mp hm with heq | htail
    · unfold mapAt
      rw [List.find?_cons_of_pos _ (by rw [← heq]; simp), ← heq]
      rfl
    · have hlt : p.1 < k := (List.pairwise_cons.mp hp).1 (k, v) htail
      unfold mapAt
      rw [List.find?_cons_of_neg _ (by
        simp only [beq_iff_eq]
        omega)]
      exact mapAt_eq_some rest k v (List.pairwise_cons.mp hp).2 htail

theorem getValueInterpolation_def (x : ℚ) (t : PFTable) :
    getValueInterpolation x t =
      (fun sg : Nat × Nat =>
        if 0 < ((sg.2 - sg.1 : Nat) : ℚ) then
          match mapAt t sg.1, mapAt t sg.2 with
          | some fs, some fg =>
              some ((((sg.2 : ℚ) - x) / ((sg.2 - sg.1 : Nat) : ℚ)) * fs +
                    ((x - (sg.1 : ℚ)) / ((sg.2 - sg.1 : Nat) : ℚ)) * fg)
          | _, _ => none
        else mapAt t sg.1) (findBrackets t x 0 max_ch_log2) := rfl

theorem getValueInterpolation_exact (t : PFTable) (x : ℚ) (k : Nat) (f : ℚ)
    (hp : List.Pairwise (fun a b : Nat × ℚ => a.1 < b.1) t)
    (hb : ∀ p ∈ t, 0 < p.1 ∧ p.1 < max_ch_log2)
    (hm : (k, f) ∈ t) (hx : x = (k : ℚ)) :
    getValueInterpolation x t = some f := by
  rw [getValueInterpolation_def,
      findBrackets_exact t x k f 0 max_ch_log2 hp hb hm hx]
  dsimp only
  rw [Nat.sub_self, Nat.cast_zero, if_neg (lt_irrefl (0 : ℚ))]
  exact mapAt_eq_some t k f hp hm

theorem getValueInterpolation_between (t : PFTable) (x : ℚ) (s g : Nat) (fs fg : ℚ)
    (hp : List.Pairwise (fun a b : Nat × ℚ => a.1 < b.1) t)
    (hb : ∀ p ∈ t, 0 < p.1 ∧ p.1 < max_ch_log2)
    (hsm : (s, fs) ∈ t) (hgm : (g, fg) ∈ t)
    (hsx : (s : ℚ) < x) (hxg : x < (g : ℚ))
    (hsep : ∀ p ∈ t, p.1 ≤ s ∨ g ≤ p.1) :
    getValueInterpolation x t =
      some ((((g : ℚ) - x) * fs + (x - (s : ℚ)) * fg) / ((g : ℚ) - (s : ℚ))) := by
  have hsg : s < g := by exact_mod_cast hsx.trans hxg
  have hsgq : (s : ℚ) < (g : ℚ) := by exact_mod_cast hsg
  rw [getValueInterpolation_def,
      findBrackets_mid t x s g fs fg 0 max_ch_log2 hp hb hsm hgm hsx hxg hsep]
  dsimp only
  rw [Nat.cast_sub (le_of_lt hsg), if_pos (by linarith : (0:ℚ) < (g : ℚ) - (s : ℚ)),
      mapAt_eq_some t s fs hp hsm, mapAt_eq_some t g fg hp hgm]
  have hne : (g : ℚ) - (s : ℚ) ≠ 0 := by linarith
  dsimp only
  congr 1
  field_simp

theorem pfFold_none : ∀ (l : List (Operation × PFTable)) (x : ℚ) (op : Operation)
    (dev : VPUDevice) (fp : Bool),
    l.foldl (pfFold x op dev fp) none = none
  | [], _, _, _, _ => rfl
  | p :: rest, x, op, dev, fp => by
    rw [List.foldl_cons]
    exact pfFold_none rest x op dev fp

theorem pfFold_skip : ∀ (l : List (Operation × PFTable)) (x : ℚ) (op : Operation)
    (dev : VPUDevice) (fp : Bool) (acc : Option ℚ),
    (∀ p ∈ l, p.1 ≠ op) → l.foldl (pfFold x op dev fp) acc = acc
  | [], _, _, _, _, _, _ => rfl
  | p :: rest, x, op, dev, fp, acc, h => by
    have hstep : pfFold x op dev fp acc p = acc := by
      cases acc with
      | none => rfl
      | some v =>
        show (if p.1 = op then
            (getValueInterpolation x p.2).map (fun w => getScaledValue w fp dev)
          else some v) = some v
        rw [if_neg (h p (List.mem_cons_self p rest))]
    rw [List.foldl_cons, hstep]
    exact pfFold_skip rest x op dev fp acc
      (fun q hq => h q (List.mem_cons_of_mem p hq))

theorem foldl_pfFold_found (x : ℚ) (op : Operation) (dev : VPUDevice) (fp : Bool)
    (pre post : List (Operation × PFTable)) (t : PFTable)
    (hpre : ∀ p ∈ pre, p.1 ≠ op) (hpost : ∀ p ∈ post, p.1 ≠ op) :
    (pre ++ (op, t) :: post).foldl (pfFold x op dev fp) (some 0) =
      (getValueInterpolation x t).map (fun w => getScaledValue w fp dev) := by
  rw [List.foldl_append, pfFold_skip pre x op dev fp (some 0) hpre, List.foldl_cons]
  have hstep : pfFold x op dev fp (some 0) (op, t) =
      (getValueInterpolation x t).map (fun w => getScaledValue w fp dev) := by
    show (if (op, t).1 = op then
        (getValueInterpolation x (op, t).2).map (fun w => getScaledValue w fp dev)
      else some 0) =
      (getValueInterpolation x t).map (fun w => getScaledValue w fp dev)
    rw [if_pos rfl]
  rw [hstep]
  rcases hM : (getValueInterpolation x t).map (fun w => getScaledValue w fp dev)
    with _ | w
  · exact pfFold_none post x op dev fp
  · exact pfFold_skip post x op dev fp (some w) hpost

theorem lmStep_skip : ∀ (l : List (VPUDevice × List (Operation × PFTable)))
    (dev : VPUDevice) (acc : List (Operation × PFTable)),
    (∀ p ∈ l, p.1 ≠ dev) → l.foldl (lmStep dev) acc = acc
  | [], _, _, _ => rfl
  | p :: rest, dev, acc, h => by
    have hstep : lmStep dev acc p = acc := by
      unfold lmStep
      rw [if_neg (h p (List.mem_cons_self p rest))]
    rw [List.foldl_cons, hstep]
    exact lmStep_skip rest dev acc (fun q hq => h q (List.mem_cons_of_mem p hq))

theorem lmStep_cases : ∀ (l : List (VPUDevice × List (Operation × PFTable)))
    (dev : VPUDevice) (acc : List (Operation × PFTable)),
    l.foldl (lmStep dev) acc = acc ∨
    ∃ p, p ∈ l ∧ l.foldl (lmStep dev) acc = p.2
  | [], _, _ => Or.inl rfl
  | p :: rest, dev, acc => by
    rw [List.foldl_cons]
    by_cases hp : p.1 = dev
    · have hstep : lmStep dev acc p = p.2 := by
        unfold lmStep
        rw [if_pos hp]
      rw [hstep]
      rcases lmStep_cases rest dev p.2 with h | ⟨q, hq, h⟩
      · exact Or.inr ⟨p, List.mem_cons_self p rest, h⟩
      · exact Or.inr ⟨q, List.mem_cons_of_mem p hq, h⟩
    · have hstep : lmStep dev acc p = acc := by
        unfold lmStep
        rw [if_neg hp]
      rw [hstep]
      rcases lmStep_cases rest dev acc with h | ⟨q, hq, h⟩
      · exact Or.inl h
      · exact Or.inr ⟨q, List.mem_cons_of_mem p hq, h⟩

theorem tables_wellformed : ∀ p ∈ pf_lut, ∀ q ∈ p.2,
    List.Pairwise (fun a b : Nat × ℚ => a.1 < b.1) q.2 ∧
    ∀ r ∈ q.2, 0 < r.1 ∧ r.1 < max_ch_log2 := by decide

theorem tables_ops_nodup : ∀ p ∈ pf_lut,
    List.Pairwise (fun a b : Operation × PFTable => a.1 ≠ b.1) p.2 := by decide

theorem pfFold_found_of_mem : ∀ (l : List (Operation × PFTable)) (x : ℚ)
    (op : Operation) (t : PFTable) (dev : VPUDevice) (fp : Bool),
    List.Pairwise (fun a b : Operation × PFTable => a.1 ≠ b.1) l →
    (op, t) ∈ l →
    l.foldl (pfFold x op dev fp) (some 0) =
      (getValueInterpolation x t).map (fun w => getScaledValue w fp dev)
  | [], _, op, t, _, _, _, hm => absurd hm (List.not_mem_nil (op, t))
  | p :: rest, x, op, t, dev, fp, hnd, hm => by
    rcases List.mem_cons.mp hm with heq | htail
    · have hstep : pfFold x op dev fp (some 0) p =
          (getValueInterpolation x t).map (fun w => getScaledValue w fp dev) := by
        rw [← heq]
        show (if (op, t).1 = op then
            (getValueInterpolation x (op, t).2).map (fun w => getScaledValue w fp dev)
          else some 0) =
          (getValueInterpolation x t).map (fun w => getScaledValue w fp dev)
        rw [if_pos rfl]
      rw [List.foldl_cons, hstep]
      have hrest : ∀ q ∈ rest, q.1 ≠ op := by
        intro q hq
        have hne := (List.pairwise_cons.mp hnd).1 q hq
        rw [← heq] at hne
        exact Ne.symm hne
      rcases hM : (getValueInterpolation x t).map (fun w => getScaledValue w fp dev)
        with _ | w
      · exact pfFold_none rest x op dev fp
      · exact pfFold_skip rest x op dev fp (some w) hrest
    · have hne : p.1 ≠ op := (List.pairwise_cons.mp hnd).1 (op, t) htail
      have hstep : pfFold x op dev fp (some 0) p = some 0 := by
        show (if p.1 = op then
            (getValueInterpolation x p.2).map (fun w => getScaledValue w fp dev)
          else some 0) = some 0
        rw [if_neg hne]
      rw [List.foldl_cons, hstep]
      exact pfFold_found_of_mem rest x op t dev fp (List.pairwise_cons.mp hnd).2 htail

theorem getValue_found (dev : VPUDevice) (ents : List (Operation × PFTable))
    (op : Operation) (t : PFTable) (x : ℚ) (fp : Bool)
    (hd : (dev, ents) ∈ pf_lut) (ho : (op, t) ∈ ents) :
    getValue x op dev fp =
      (getValueInterpolation x t).map (fun w => getScaledValue w fp dev) := by
  have hd2 : (dev, ents) = (VPUDevice.VPU_2_0, vpu_2_0_values) ∨
      (dev, ents) = (VPUDevice.VPU_2_7, vpu_2_7_values) := by
    simpa [pf_lut] using hd
  have hlast : lastMatchingDevice dev = ents := by
    rcases hd2 with h | h
    · have h1 : dev = VPUDevice.VPU_2_0 := congrArg Prod.fst h
      have h2 : ents = vpu_2_0_values := congrArg Prod.snd h
      rw [h1, h2]
      rfl
    · have h1 : dev = VPUDevice.VPU_2_7 := congrArg Prod.fst h
      have h2 : ents = vpu_2_7_values := congrArg Prod.snd h
      rw [h1, h2]
      rfl
  unfold getValue
  rw [hlast]
  exact pfFold_found_of_mem ents x op t dev fp (tables_ops_nodup (dev, ents) hd) ho

/-- C6: the power factor lookup returns the table entry (post-scaled) on an
exact key hit; for a query strictly between the two bracketing keys it
returns the logarithmic interpolation of their entries (post-scaled); the
post-scale multiplies by 0.87 exactly for VPU_2_0 with floating compute and
by 0.79 exactly for VPU_2_7 with integer compute, being identity otherwise; a
device or an operation with no table entries yields 0; and the VPU_2_0
convolution queried at log2 of 64 input channels with integer compute yields
exactly 1. -/
theorem claim_C6 :
    (∀ (dev : VPUDevice) (ents : List (Operation × PFTable)) (op : Operation)
        (t : PFTable) (x : ℚ) (k : Nat) (f : ℚ) (fp : Bool),
      (dev, ents) ∈ pf_lut → (op, t) ∈ ents → (k, f) ∈ t → x = (k : ℚ) →
      getValue x op dev fp = some (getScaledValue f fp dev)) ∧
    (∀ (dev : VPUDevice) (ents : List (Operation × PFTable)) (op : Operation)
        (t : PFTable) (x : ℚ) (s g : Nat) (fs fg : ℚ) (fp : Bool),
      (dev, ents) ∈ pf_lut → (op, t) ∈ ents →
      (s, fs) ∈ t → (g, fg) ∈ t → (s : ℚ) < x → x < (g : ℚ) →
      (∀ p ∈ t, p.1 ≤ s ∨ g ≤ p.1) →
      getValue x op dev fp =
        some (getScaledValue
          ((((g : ℚ) - x) * fs + (x - (s : ℚ)) * fg) / ((g : ℚ) - (s : ℚ)))
          fp dev)) ∧
    (∀ (v : ℚ) (fp : Bool) (dev : VPUDevice),
      getScaledValue v fp dev =
        if dev = VPUDevice.VPU_2_0 ∧ fp = true then v * (87/100)
        else if dev = VPUDevice.VPU_2_7 ∧ fp = false then v * (79/100)
        else v) ∧
    (∀ (x : ℚ) (op : Operation) (fp : Bool) (dev : VPUDevice),
      (∀ p ∈ pf_lut, p.1 ≠ dev) → getValue x op dev fp = some 0) ∧
    (∀ (x : ℚ) (op : Operation) (fp : Bool) (dev : VPUDevice),
      (∀ p ∈ pf_lut, ∀ q ∈ p.2, q.1 ≠ op) → getValue x op dev fp = some 0) ∧
    getValue 6 Operation.CONVOLUTION VPUDevice.VPU_2_0 false = some 1 := by
  refine ⟨?_, ?_, ?_, ?_, ?_, ?_⟩
  · intro dev ents op t x k f fp hd ho hm hx
    have hw := tables_wellformed (dev, ents) hd (op, t) ho
    rw [getValue_found dev ents op t x fp hd ho,
        getValueInterpolation_exact t x k f hw.1 hw.2 hm hx]
    rfl
  · intro dev ents op t x s g fs fg fp hd ho hsm hgm hsx hxg hsep
    have hw := tables_wellformed (dev, ents) hd (op, t) ho
    rw [getValue_found dev ents op t x fp hd ho,
        getValueInterpolation_between t x s g fs fg hw.1 hw.2 hsm hgm hsx hxg hsep]
    rfl
  · intro v fp dev
    rfl
  · intro x op fp dev h
    unfold getValue lastMatchingDevice
    rw [lmStep_skip pf_lut dev [] h]
    rfl
  · intro x op fp dev h
    unfold getValue lastMatchingDevice
    rcases lmStep_cases pf_lut dev [] with hl | ⟨p, hp, hl⟩
    · rw [hl]
      rfl
    · rw [hl]
      exact pfFold_skip p.2 x op dev fp (some 0) (h p hp)
  · decide

/-- Witness for C6 at the exact-hit conjunct: the VPU_2_0 convolution table
holds the pair (6, 1), and the lookup at 6 with integer compute returns its
unscaled entry. -/
theorem claim_C6_witness :
    ((6 : Nat), (1 : ℚ)) ∈
      ([(4, 87/100), (5, 92/100), (6, 1), (7, 95/100), (8, 86/100), (9, 87/100)] :
        PFTable) ∧
    (6 : ℚ) = ((6 : Nat) : ℚ) ∧
    getValue 6 Operation.CONVOLUTION VPUDevice.VPU_2_0 false =
      some (getScaledValue 1 false VPUDevice.VPU_2_0) :=
  ⟨by simp, by norm_num,
    claim_C6.1 VPUDevice.VPU_2_0 vpu_2_0_values Operation.CONVOLUTION
      [(4, 87/100), (5, 92/100), (6, 1), (7, 95/100), (8, 86/100), (9, 87/100)]
      6 6 1 false (by simp [pf_lut]) (by simp [vpu_2_0_values]) (by simp)
      (by norm_num)⟩

/-- C10: a lookup whose log2 channel value lies outside the key range of an
in-table operation reads the map at an absent key: at log2 of 8 input
channels (3, below the smallest VPU_2_0 convolution key 4) the smaller
neighbour stays 0 and the read at key 0 raises out_of_range (modelled none);
at 12 (above the largest key 9) the greater neighbour stays 13 and the read
at key 13 raises likewise; neither query extrapolates or returns a number. -/
theorem claim_C10 :
    getValue 3 Operation.CONVOLUTION VPUDevice.VPU_2_0 false = none ∧
    getValue 12 Operation.CONVOLUTION VPUDevice.VPU_2_0 false = none := by
  constructor
  · decide
  · decide

end VPUNN
